import Mathlib

/-!
Verification of the contest scoring engine of the `judge` app: the default
contest format (`judge/contest_format/default.py`), the shared base-format
helper (`judge/contest_format/base.py`), the format registry
(`judge/contest_format/registry.py`), and the submission data model
(`judge/models.py`).

Conventions of the shallow embedding:
  * Timestamps (Django `DateTimeField` values) and floating-point scores
    (`FloatField`) are modelled as exact rationals `ℚ`; `None` values of
    nullable columns become `Option.none`.
  * Django ORM aggregates `Max` / `Sum` over a nullable column skip `NULL`
    rows and produce `NULL` on an all-`NULL` (or empty) input; they are
    modelled by `aggMax` / `sqlSum` on `List (Option ℚ)`.
  * A Python function that can raise is modelled with `Option` / `Except`:
    `none` / `.error` is the raised exception, `some` / `.ok` the
    returned value.
  * Python dictionaries keyed by ids are association lists; `dictInsert`
    models `d[k] = v` (overwrite in place, else append, as insertion-ordered
    Python dicts do).
-/

/-- One row of the `Submission` table as seen by the default format for one
contest problem: its `date` column (submission time, seconds) and its
nullable `points` column (`null` until graded). -/
structure SubRow where
  date : ℚ
  points : Option ℚ
deriving Repr, DecidableEq

/-- One problem attached to a contest, together with the submissions of the
participation being updated for that problem (the result of
`problem.submissions.filter(participation=...)`). -/
structure ContestProblem where
  id : ℕ
  submissions : List SubRow
deriving Repr, DecidableEq

/-- One value of `format_data[problem.id]` as written by the default format:
`{'time': dt, 'points': result['points']}` (the aggregated `Max('points')`,
which is `None` when every submission of the problem is ungraded). -/
structure FormatEntry where
  time : ℚ
  points : Option ℚ
deriving Repr, DecidableEq

/-- The fields of a `ContestParticipation` row that
`update_participation` writes: `points`, `cumtime` and `format_data`. -/
structure Participation where
  points : ℚ
  cumtime : ℚ
  format_data : List (ℕ × FormatEntry)
deriving Repr, DecidableEq

/-- Modelled from the spec: the persisted contest data that
`update_participation` reads — the contest's start time and its attached
problems, each carrying this participation's submissions.  The contest models
(`ContestParticipation`, `ContestProblem`, `ContestSubmission`) are not part
of the sources here, only the scoring code that queries them. -/
structure Env where
  start : ℚ
  problems : List ContestProblem
deriving Repr, DecidableEq

/-- Django's `Max` aggregate over a nullable column: `NULL` inputs are
skipped, and the aggregate itself is `NULL` when no non-`NULL` input
exists (in particular on an empty row set). -/
def aggMax : List (Option ℚ) → Option ℚ
  | [] => none
  | Option.none :: rest => aggMax rest
  | Option.some a :: rest =>
    some (match aggMax rest with
      | none => a
      | some b => max a b)

/-- Django's `Sum` aggregate over a nullable column: `NULL` inputs are
skipped, and the aggregate is `NULL` when no non-`NULL` input exists. -/
def sqlSum : List (Option ℚ) → Option ℚ
  | [] => none
  | Option.none :: rest => sqlSum rest
  | Option.some a :: rest =>
    some (match sqlSum rest with
      | none => a
      | some b => a + b)

/-- `Max('submission__date')` over one problem's submissions: the `date`
column is not nullable, so this is `none` exactly on an empty row set. -/
def maxDate (subs : List SubRow) : Option ℚ :=
  aggMax (subs.map (fun s => some s.date))

/-- `Max('points')` over one problem's submissions: `points` is nullable
(`null` until graded), so ungraded submissions are skipped. -/
def maxPoints (subs : List SubRow) : Option ℚ :=
  aggMax (subs.map (fun s => s.points))

/-- Python dict assignment `d[problem.id] = entry`: overwrite in place when
the key is present, else append (insertion order is kept). -/
def dictInsert (k : ℕ) (v : FormatEntry) (d : List (ℕ × FormatEntry)) :
    List (ℕ × FormatEntry) :=
  if (d.lookup k).isSome then d.map (fun kv => if kv.1 = k then (k, v) else kv)
  else d ++ [(k, v)]

namespace BaseContestFormat

/-- `BaseContestFormat.best_solution_state` from `base.py`: `'failed-score'`
when `points` is falsy (zero), `'full-score'` when `points == total`, else
`'partial-score'`. -/
def best_solution_state (points total : ℚ) : String :=
  if points = 0 then "failed-score"
  else if points = total then "full-score"
  else "partial-score"

end BaseContestFormat

/-- A Python value passed as the format configuration: `None`, a dict
(string keys and values suffice to decide emptiness), or any other,
non-dict value. -/
inductive PyConfig where
  | none : PyConfig
  | dict (entries : List (String × String)) : PyConfig
  | other (repr : String) : PyConfig
deriving Repr, DecidableEq

/-- `isinstance(config, dict)`. -/
def PyConfig.isDict : PyConfig → Bool
  | PyConfig.dict _ => true
  | _ => false

/-- Python truthiness of a config value: `None` is falsy, a dict is truthy
iff non-empty; other values are taken truthy (irrelevant: the short-circuit
`not isinstance(config, dict) or config` never reaches them). -/
def PyConfig.truthy : PyConfig → Bool
  | PyConfig.none => false
  | PyConfig.dict entries => !entries.isEmpty
  | PyConfig.other _ => true

namespace DefaultContestFormat

/-- `DefaultContestFormat.validate` from `default.py`: raises
`ValidationError` iff `config is not None and (not isinstance(config, dict)
or config)`. -/
def validate (config : PyConfig) : Except String Unit :=
  if config ≠ PyConfig.none ∧ (config.isDict = false ∨ config.truthy = true)
  then Except.error "default contest expects no config or empty dict as config"
  else Except.ok ()

end DefaultContestFormat

namespace Submission

/-- `Submission.is_graded` from `models.py`:
`self.status not in ["QU", "C", "G"]`. -/
def is_graded (status : String) : Bool :=
  !(["QU", "C", "G"].contains status)

/-- One `SubmissionTestCase` row: its nullable `points` (awarded) and
`total` (possible) columns. -/
structure SubmissionTestCase where
  points : Option ℚ
  total : Option ℚ
deriving Repr, DecidableEq

/-- `Submission.testcase_granted_points` from `models.py`: the rows of this
submission are grouped (one group, the submission itself) and annotated with
`Sum('points')`; with no rows the queryset is empty and `0` is returned,
else the annotated sum (which is SQL-`NULL`, here `none`, when every row's
`points` is `NULL`). -/
def testcase_granted_points (cases : List SubmissionTestCase) : Option ℚ :=
  if cases.isEmpty then some 0
  else sqlSum (cases.map (fun c => c.points))

/-- `Submission.testcase_total_points` from `models.py`: as
`testcase_granted_points` with `Sum('total')`. -/
def testcase_total_points (cases : List SubmissionTestCase) : Option ℚ :=
  if cases.isEmpty then some 0
  else sqlSum (cases.map (fun c => c.total))

end Submission

/-- A registered contest format class, as the registry sees it: only its
display `name` attribute matters here. -/
structure ContestFormatClass where
  name : String
deriving Repr, DecidableEq

/-- The module-level `formats` dict of `registry.py`, as an
insertion-ordered association list. -/
abbrev FormatRegistry := List (String × ContestFormatClass)

/-- `register_contest_format(name)` from `registry.py`, applied to a class:
`assert name not in formats` (an `AssertionError` when the name is taken),
then `formats[name] = contest_format_class`. -/
def register_contest_format (name : String) (cls : ContestFormatClass)
    (formats : FormatRegistry) : Except String FormatRegistry :=
  if (formats.lookup name).isSome then
    Except.error "AssertionError: name already registered"
  else Except.ok (formats ++ [(name, cls)])

/-- Modelled from the spec: `resolve(name)` — the registry lookup
`formats[name]`, failing with `UnknownFormatError` when the name was never
registered.  `registry.py` only declares the `formats` dict; no lookup
helper is part of the sources. -/
def resolve (name : String) (formats : FormatRegistry) :
    Except String ContestFormatClass :=
  match formats.lookup name with
  | some cls => Except.ok cls
  | none => Except.error "UnknownFormatError"

/-- Lexicographic order on character lists: models Python's `str`
comparison (by code points). -/
def charListLt : List Char → List Char → Bool
  | [], [] => false
  | [], _ :: _ => true
  | _ :: _, [] => false
  | c :: cs, d :: ds => if c < d then true else if d < c then false else charListLt cs ds

/-- Python's `<` on strings. -/
def strLt (a b : String) : Bool := charListLt a.data b.data

/-- Insert one `(name, class)` pair into a list sorted by name: models the
ordering `sorted(six.iteritems(formats))` produces (keys are unique, so
comparison never falls through to the values). -/
def insertByKey (kv : String × ContestFormatClass) :
    List (String × ContestFormatClass) → List (String × ContestFormatClass)
  | [] => [kv]
  | x :: xs => if strLt kv.1 x.1 then kv :: x :: xs else x :: insertByKey kv xs

/-- `sorted(six.iteritems(formats))`. -/
def sortByKey : List (String × ContestFormatClass) →
    List (String × ContestFormatClass)
  | [] => []
  | x :: xs => insertByKey x (sortByKey xs)

/-- The `result` list the loop of `choices()` in `registry.py` builds: one
`(key, value.name)` pair per registered format, in sorted key order. -/
def choices_result (formats : FormatRegistry) : List (String × String) :=
  (sortByKey formats).map (fun kv => (kv.1, kv.2.name))

/-- `choices()` from `registry.py`: the loop fills `result`, but the
function body ends without a `return` statement, so the caller receives
Python's implicit `None`. -/
def choices (formats : FormatRegistry) : Option (List (String × String)) :=
  let _result := choices_result formats
  none

namespace DefaultContestFormat

/-- The loop state of `update_participation`: the local variables `cumtime`,
`points` and the dict `format_data`. -/
structure UpdAcc where
  cumtime : ℚ
  points : ℚ
  format_data : List (ℕ × FormatEntry)
deriving Repr, DecidableEq

/-- One iteration of the loop of `DefaultContestFormat.update_participation`
(`default.py`): aggregate `time=Max('submission__date')`,
`points=Max('points')` over this problem's submissions by the participation;
when `result['time']` is truthy (a datetime, i.e. not `None`), take
`dt = time - start`, add `dt` to `cumtime` when `dt` is truthy (non-zero),
store `{'time': dt, 'points': result['points']}` under the problem's id, and
run `points += result['points']` — a `TypeError` (modelled `none`) when
`result['points']` is `None`, i.e. when no submission of the problem is
graded. -/
def updateStep (start : ℚ) (acc : UpdAcc) (problem : ContestProblem) :
    Option UpdAcc :=
  match maxDate problem.submissions with
  | none => some acc
  | some t =>
    let dt := t - start
    let cum := if dt ≠ 0 then acc.cumtime + dt else acc.cumtime
    let fd := dictInsert problem.id ⟨dt, maxPoints problem.submissions⟩ acc.format_data
    match maxPoints problem.submissions with
    | none => none
    | some p => some ⟨cum, acc.points + p, fd⟩

/-- `DefaultContestFormat.update_participation` (`default.py`): starting from
`cumtime = 0`, `points = 0`, `format_data = {}`, loop over the contest's
problems, then overwrite the participation's three fields with the loop
result.  The previous field values of the participation are never read.
`none` models an exception escaping the loop (nothing is saved then). -/
def update_participation (env : Env) (_p : Participation) : Option Participation :=
  (env.problems.foldlM (updateStep env.start) ⟨0, 0, []⟩).map
    (fun acc => ⟨acc.points, acc.cumtime, acc.format_data⟩)

/-- A problem the loop body survives: either no submission at all (the
aggregate row is empty and the problem is skipped) or at least one graded
submission (so `result['points']` is not `None`). -/
def updOk (pr : ContestProblem) : Prop :=
  pr.submissions = [] ∨ (maxPoints pr.submissions).isSome

instance (pr : ContestProblem) : Decidable (updOk pr) := by
  unfold updOk; infer_instance

/-- The `format_data` dict the loop builds, described per problem: one entry
per problem that has a submission, keyed by the problem id, holding
`Max('submission__date') - start` and `Max('points')`. -/
def fdOf (start : ℚ) (problems : List ContestProblem) : List (ℕ × FormatEntry) :=
  problems.filterMap (fun pr =>
    (maxDate pr.submissions).map (fun d => (pr.id, (⟨d - start, maxPoints pr.submissions⟩ : FormatEntry))))

/-- The cumulative time the loop builds: the sum, over problems with a
submission, of `Max('submission__date') - start`. -/
def cumOf (start : ℚ) (problems : List ContestProblem) : ℚ :=
  (problems.filterMap (fun pr => (maxDate pr.submissions).map (fun d => d - start))).sum

/-- The score the loop builds: the sum over all problems of the maximum
graded `points`, an absent maximum counting zero. -/
def ptsOf (problems : List ContestProblem) : ℚ :=
  (problems.map (fun pr => (maxPoints pr.submissions).getD 0)).sum

end DefaultContestFormat

/-- The spec's scenario: contest starts at `T0 = 0`; the participation has
one problem (id 1) with an Accepted submission (10 points) at `T0+60` and a
later Wrong Answer submission (0 points) at `T0+120`. -/
def envA : Env := ⟨0, [⟨1, [⟨60, some 10⟩, ⟨120, some 0⟩]⟩]⟩

/-- A participation row before the update (its fields are overwritten and
never read). -/
def partZero : Participation := ⟨0, 0, []⟩

/-- What `update_participation` produces on `envA`: 10 points, and the time
of the later (worse) submission. -/
def rA : Participation := ⟨10, 120, [(1, ⟨120, some 10⟩)]⟩

/-- A contest starting at time 100 whose single problem has one graded
submission dated 90 — before the contest start. -/
def envB : Env := ⟨100, [⟨1, [⟨90, some 5⟩]⟩]⟩

/-- What `update_participation` produces on `envB`: a negative delta of
`90 - 100 = -10` flows into `cumtime` unclamped. -/
def rB : Participation := ⟨5, -10, [(1, ⟨-10, some 5⟩)]⟩

/-- A contest whose single problem has exactly one submission, dated 30 and
still ungraded (`points` is `null`). -/
def envC : Env := ⟨0, [⟨1, [⟨30, none⟩]⟩]⟩

/-! General lemmas about the aggregate models and association lists. -/

lemma aggMax_mem : ∀ (l : List (Option ℚ)) (a : ℚ), aggMax l = some a → some a ∈ l := by
  intro l
  induction l with
  | nil => intro a h; simp [aggMax] at h
  | cons x rest ih =>
    intro a h
    cases x with
    | none =>
      have h2 : aggMax rest = some a := h
      exact List.mem_cons_of_mem _ (ih a h2)
    | some b =>
      have h2 : (match aggMax rest with | Option.none => b | Option.some c => max b c) = a := by
        simpa [aggMax] using h
      cases haggr : aggMax rest with
      | none =>
        rw [haggr] at h2
        simp only at h2
        exact h2 ▸ List.mem_cons_self _ _
      | some c =>
        rw [haggr] at h2
        simp only at h2
        rcases max_choice b c with hm | hm
        · rw [hm] at h2
          exact h2 ▸ List.mem_cons_self _ _
        · rw [hm] at h2
          rw [h2] at haggr
          exact List.mem_cons_of_mem _ (ih a haggr)

lemma maxDate_eq_none_iff (subs : List SubRow) : maxDate subs = none ↔ subs = [] := by
  cases subs with
  | nil => simp [maxDate, aggMax]
  | cons s rest => simp [maxDate, aggMax]

lemma maxDate_mem (subs : List SubRow) (d : ℚ) (h : maxDate subs = some d) :
    ∃ s ∈ subs, s.date = d := by
  have h2 := aggMax_mem _ _ h
  simpa using h2

lemma sqlSum_all_some :
    ∀ (l : List (Option ℚ)), (∀ x ∈ l, x.isSome) → l ≠ [] →
      sqlSum l = some ((l.map (fun x => x.getD 0)).sum) := by
  intro l
  induction l with
  | nil => intro _ h; exact absurd rfl h
  | cons x rest ih =>
    intro hall _
    obtain ⟨a, rfl⟩ := Option.isSome_iff_exists.mp (hall x (List.mem_cons_self x rest))
    cases rest with
    | nil => simp [sqlSum]
    | cons y ys =>
      have h2 := ih (fun z hz => hall z (List.mem_cons_of_mem _ hz)) (List.cons_ne_nil y ys)
      simp [sqlSum, h2]

lemma lookup_append_left_none {α β : Type} [BEq α] (l₁ l₂ : List (α × β)) (k : α)
    (h : l₁.lookup k = none) : (l₁ ++ l₂).lookup k = l₂.lookup k := by
  induction l₁ with
  | nil => simp
  | cons x rest ih =>
    obtain ⟨a, b⟩ := x
    simp only [List.lookup, List.cons_append] at h ⊢
    cases hk : (k == a) with
    | true => rw [hk] at h; exact absurd h (by simp)
    | false => rw [hk] at h; exact ih h

open DefaultContestFormat in
/-- Full characterization of the loop of `update_participation`: starting
from accumulator `acc`, over problems whose ids are fresh for `acc` and
mutually distinct, the loop returns the componentwise sums/appends when
every problem is survivable, and raises (returns `none`) otherwise. -/
lemma foldlM_updateStep_char (start : ℚ) :
    ∀ (problems : List ContestProblem) (acc : UpdAcc),
      (∀ pr ∈ problems, acc.format_data.lookup pr.id = none) →
      (problems.map (fun pr => pr.id)).Nodup →
      problems.foldlM (updateStep start) acc =
        if ∀ pr ∈ problems, updOk pr
        then some ⟨acc.cumtime + cumOf start problems,
                   acc.points + ptsOf problems,
                   acc.format_data ++ fdOf start problems⟩
        else none := by
  intro problems
  induction problems with
  | nil =>
    intro acc _ _
    simp [List.foldlM, cumOf, ptsOf, fdOf]
  | cons pr rest ih =>
    intro acc hfresh hnd
    have hnd2 : (rest.map (fun q => q.id)).Nodup := (List.nodup_cons.mp (by simpa using hnd)).2
    have hid : pr.id ∉ rest.map (fun q => q.id) := (List.nodup_cons.mp (by simpa using hnd)).1
    rw [List.foldlM_cons]
    cases hmd : maxDate pr.submissions with
    | none =>
      have hsubs : pr.submissions = [] := (maxDate_eq_none_iff _).mp hmd
      have hstep : updateStep start acc pr = some acc := by
        simp [updateStep, hmd]
      rw [hstep]
      have hih := ih acc (fun q hq => hfresh q (List.mem_cons_of_mem _ hq)) hnd2
      have hcum : cumOf start (pr :: rest) = cumOf start rest := by
        simp [cumOf, hmd]
      have hpts : ptsOf (pr :: rest) = ptsOf rest := by
        simp [ptsOf, hsubs, maxPoints, aggMax]
      have hfd : fdOf start (pr :: rest) = fdOf start rest := by
        simp [fdOf, hmd]
      have hcond : (∀ q ∈ pr :: rest, updOk q) ↔ (∀ q ∈ rest, updOk q) := by
        constructor
        · intro hall q hq; exact hall q (List.mem_cons_of_mem _ hq)
        · intro hall q hq
          rcases List.mem_cons.mp hq with rfl | hq2
          · exact Or.inl hsubs
          · exact hall q hq2
      show rest.foldlM (updateStep start) acc = _
      rw [hih, hcum, hpts, hfd]
      by_cases hc : ∀ q ∈ rest, updOk q
      · rw [if_pos hc, if_pos (hcond.mpr hc)]
      · rw [if_neg hc, if_neg (fun hall => hc (hcond.mp hall))]
    | some t =>
      have hsubs : pr.submissions ≠ [] := by
        intro he
        rw [(maxDate_eq_none_iff _).mpr he] at hmd
        exact Option.noConfusion hmd
      cases hmp : maxPoints pr.submissions with
      | none =>
        have hstep : updateStep start acc pr = none := by
          simp [updateStep, hmd, hmp]
        rw [hstep]
        have hcond : ¬ ∀ q ∈ pr :: rest, updOk q := by
          intro hall
          rcases hall pr (List.mem_cons_self _ _) with he | hs
          · exact hsubs he
          · rw [hmp] at hs; exact Bool.noConfusion hs
        rw [if_neg hcond]
        rfl
      | some pts =>
        have hlup : acc.format_data.lookup pr.id = none :=
          hfresh pr (List.mem_cons_self _ _)
        have hstep : updateStep start acc pr =
            some ⟨acc.cumtime + (t - start), acc.points + pts,
                  acc.format_data ++ [(pr.id, ⟨t - start, some pts⟩)]⟩ := by
          simp only [updateStep, hmd, hmp]
          have hcum : (if t - start ≠ 0 then acc.cumtime + (t - start) else acc.cumtime) =
              acc.cumtime + (t - start) := by
            by_cases hz : t - start = 0
            · rw [if_neg (by simpa using hz), hz, add_zero]
            · rw [if_pos hz]
          have hdi : dictInsert pr.id ⟨t - start, some pts⟩ acc.format_data =
              acc.format_data ++ [(pr.id, ⟨t - start, some pts⟩)] := by
            rw [dictInsert, hlup]
            simp
          rw [hcum, hdi]
        rw [hstep]
        set acc2 : UpdAcc := UpdAcc.mk (acc.cumtime + (t - start)) (acc.points + pts)
            (acc.format_data ++ [(pr.id, FormatEntry.mk (t - start) (some pts))]) with hacc2
        have hfresh2 : ∀ q ∈ rest, acc2.format_data.lookup q.id = none := by
          intro q hq
          have hne : q.id ≠ pr.id := by
            intro he
            exact hid (he ▸ List.mem_map_of_mem _ hq)
          have h1 : acc.format_data.lookup q.id = none :=
            hfresh q (List.mem_cons_of_mem _ hq)
          rw [hacc2]
          show (acc.format_data ++ [(pr.id, FormatEntry.mk (t - start) (some pts))]).lookup q.id = none
          rw [lookup_append_left_none _ _ _ h1]
          simp [List.lookup, beq_eq_false_iff_ne.mpr hne]
        have hih := ih acc2 hfresh2 hnd2
        have hok : updOk pr := Or.inr (by rw [hmp]; rfl)
        have hcond : (∀ q ∈ pr :: rest, updOk q) ↔ (∀ q ∈ rest, updOk q) := by
          constructor
          · intro hall q hq; exact hall q (List.mem_cons_of_mem _ hq)
          · intro hall q hq
            rcases List.mem_cons.mp hq with rfl | hq2
            · exact hok
            · exact hall q hq2
        have hcum : cumOf start (pr :: rest) = (t - start) + cumOf start rest := by
          simp [cumOf, hmd]
        have hpts : ptsOf (pr :: rest) = pts + ptsOf rest := by
          simp [ptsOf, hmp]
        have hfd : fdOf start (pr :: rest) =
            (pr.id, ⟨t - start, some pts⟩) :: fdOf start rest := by
          simp [fdOf, hmd, hmp]
        show rest.foldlM (updateStep start) acc2 = _
        rw [hih, hcum, hpts, hfd]
        by_cases hc : ∀ q ∈ rest, updOk q
        · rw [if_pos hc, if_pos (hcond.mpr hc)]
          simp only [hacc2, add_assoc, List.append_assoc, List.singleton_append]
        · rw [if_neg hc, if_neg (fun hall => hc (hcond.mp hall))]

open DefaultContestFormat in
/-- `update_participation` characterized: when the problem ids are distinct
(as database primary keys are), it succeeds iff every problem with a
submission has a graded one, and then writes exactly the per-problem
aggregates. -/
lemma update_participation_char (env : Env) (p : Participation)
    (hnd : (env.problems.map (fun pr => pr.id)).Nodup) :
    update_participation env p =
      if ∀ pr ∈ env.problems, updOk pr
      then some ⟨ptsOf env.problems, cumOf env.start env.problems,
                 fdOf env.start env.problems⟩
      else none := by
  have h := foldlM_updateStep_char env.start env.problems ⟨0, 0, []⟩
    (fun pr _ => rfl) hnd
  rw [update_participation, h]
  by_cases hc : ∀ pr ∈ env.problems, updOk pr
  · rw [if_pos hc, if_pos hc]
    simp
  · rw [if_neg hc, if_neg hc]
    rfl

open DefaultContestFormat in
/-- Looking a problem up in the built `format_data`: with distinct problem
ids, a problem with a submission is found with exactly its aggregate
entry. -/
lemma fdOf_lookup (start : ℚ) :
    ∀ (problems : List ContestProblem),
      (problems.map (fun pr => pr.id)).Nodup →
      ∀ pr ∈ problems, ∀ d, maxDate pr.submissions = some d →
        (fdOf start problems).lookup pr.id =
          some ⟨d - start, maxPoints pr.submissions⟩ := by
  intro problems
  induction problems with
  | nil =>
    intro _ pr h
    simp at h
  | cons q rest ih =>
    intro hnd pr hmem d hd
    have hnd2 : (rest.map (fun r => r.id)).Nodup := (List.nodup_cons.mp (by simpa using hnd)).2
    have hqid : q.id ∉ rest.map (fun r => r.id) := (List.nodup_cons.mp (by simpa using hnd)).1
    rcases List.mem_cons.mp hmem with rfl | hmem2
    · rw [show fdOf start (pr :: rest) =
          (pr.id, FormatEntry.mk (d - start) (maxPoints pr.submissions)) :: fdOf start rest from by
        simp [fdOf, hd]]
      simp [List.lookup]
    · have hne : pr.id ≠ q.id := by
        intro he
        exact hqid (he ▸ List.mem_map_of_mem _ hmem2)
      have htail := ih hnd2 pr hmem2 d hd
      cases hq : maxDate q.submissions with
      | none =>
        rw [show fdOf start (q :: rest) = fdOf start rest from by simp [fdOf, hq]]
        exact htail
      | some dq =>
        rw [show fdOf start (q :: rest) =
            (q.id, FormatEntry.mk (dq - start) (maxPoints q.submissions)) :: fdOf start rest from by
          simp [fdOf, hq]]
        rw [show ((q.id, FormatEntry.mk (dq - start) (maxPoints q.submissions)) :: fdOf start rest).lookup pr.id
            = (fdOf start rest).lookup pr.id from by
          simp [List.lookup, beq_eq_false_iff_ne.mpr hne]]
        exact htail

open DefaultContestFormat in
/-- Claim C1: whenever `update_participation` completes, every contest
problem with at least one submission by the participation gets a
`format_data` entry whose `points` is the maximum submission points for the
problem (`Max('points')`, a real value) and whose `time` is the elapsed time
from the contest start to the latest submission timestamp
(`Max('submission__date')`) — the latest-timestamp submission, not the
best-scoring one; and `participation.points` is the sum over all problems of
the per-problem maxima (zero for problems without a graded submission). -/
theorem update_participation_c1_latest_time_best_points (env : Env)
    (p r : Participation)
    (hnd : (env.problems.map (fun pr => pr.id)).Nodup)
    (h : update_participation env p = some r) :
    (∀ pr ∈ env.problems, pr.submissions ≠ [] →
        (maxPoints pr.submissions).isSome = true ∧
        r.format_data.lookup pr.id =
          some ⟨(maxDate pr.submissions).getD 0 - env.start,
                maxPoints pr.submissions⟩) ∧
    r.points = (env.problems.map (fun pr => (maxPoints pr.submissions).getD 0)).sum := by
  have hchar := update_participation_char env p hnd
  rw [h] at hchar
  by_cases hc : ∀ pr ∈ env.problems, updOk pr
  case neg =>
    rw [if_neg hc] at hchar
    exact absurd hchar (by simp)
  rw [if_pos hc] at hchar
  have hr : r = ⟨ptsOf env.problems, cumOf env.start env.problems,
      fdOf env.start env.problems⟩ := Option.some.inj hchar
  subst hr
  constructor
  · intro pr hmem hsub
    obtain ⟨d, hd⟩ : ∃ d, maxDate pr.submissions = some d := by
      cases hmd : maxDate pr.submissions with
      | none => exact absurd ((maxDate_eq_none_iff _).mp hmd) hsub
      | some d => exact ⟨d, rfl⟩
    refine ⟨?_, ?_⟩
    · rcases hc pr hmem with he | hs
      · exact absurd he hsub
      · exact hs
    · have hlup := fdOf_lookup env.start env.problems hnd pr hmem d hd
      rw [hd]
      simpa using hlup
  · rfl

open DefaultContestFormat in
/-- Witness for claim C1 at the spec's scenario `envA` (Accepted worth 10 at
`T0+60`, Wrong Answer worth 0 at `T0+120`): the update succeeds, the entry
for problem 1 carries the best points and the latest submission's time, and
the participation's points are the per-problem maxima summed. -/
theorem update_participation_c1_witness :
    update_participation envA partZero = some rA ∧
    rA.format_data.lookup 1 =
      some ⟨(maxDate [⟨60, some 10⟩, ⟨120, some 0⟩]).getD 0 - envA.start,
            maxPoints [⟨60, some 10⟩, ⟨120, some 0⟩]⟩ ∧
    rA.points = (envA.problems.map (fun pr => (maxPoints pr.submissions).getD 0)).sum := by
  have h : update_participation envA partZero = some rA := by
    norm_num [update_participation, updateStep, maxDate, maxPoints, aggMax,
      dictInsert, envA, partZero, rA, List.foldlM]
  have h2 := update_participation_c1_latest_time_best_points envA partZero rA
    (by simp [envA]) h
  exact ⟨h, (h2.1 ⟨1, [⟨60, some 10⟩, ⟨120, some 0⟩]⟩ (by simp [envA]) (by simp)).2, h2.2⟩

/-- Claim C2 counterexample: on `envB` (contest start 100, one graded
5-point submission dated 90) the update succeeds with `cumtime = -10`: the
negative delta is added unclamped and the resulting cumulative time is
negative, contradicting the claimed clamping and `cumtime ≥ 0`. -/
theorem update_participation_c2_counterexample :
    DefaultContestFormat.update_participation envB partZero = some rB ∧
    rB.cumtime = -10 ∧ rB.cumtime < 0 := by
  refine ⟨?_, by norm_num [rB], by norm_num [rB]⟩
  norm_num [DefaultContestFormat.update_participation, DefaultContestFormat.updateStep,
    maxDate, maxPoints, aggMax, dictInsert, envB, partZero, rB, List.foldlM]

open DefaultContestFormat in
/-- Claim C2 as amended: when `update_participation` completes, a zero
per-problem delta contributes nothing to `cumtime` (the cumulative time is
exactly the sum of the per-problem deltas, and a zero delta adds zero), but
a negative delta is added unclamped; `cumtime ≥ 0` is only guaranteed when
no submission predates the contest start. -/
theorem update_participation_c2_amended (env : Env) (p r : Participation)
    (hnd : (env.problems.map (fun pr => pr.id)).Nodup)
    (h : update_participation env p = some r) :
    r.cumtime = cumOf env.start env.problems ∧
    ((∀ pr ∈ env.problems, ∀ s ∈ pr.submissions, env.start ≤ s.date) →
      0 ≤ r.cumtime) := by
  have hchar := update_participation_char env p hnd
  rw [h] at hchar
  by_cases hc : ∀ pr ∈ env.problems, updOk pr
  case neg =>
    rw [if_neg hc] at hchar
    exact absurd hchar (by simp)
  rw [if_pos hc] at hchar
  have hr : r = ⟨ptsOf env.problems, cumOf env.start env.problems,
      fdOf env.start env.problems⟩ := Option.some.inj hchar
  subst hr
  refine ⟨rfl, ?_⟩
  intro hdates
  show 0 ≤ cumOf env.start env.problems
  rw [cumOf]
  apply List.sum_nonneg
  intro x hx
  obtain ⟨pr, hpr, hmap⟩ := List.mem_filterMap.mp hx
  obtain ⟨d, hd, hxd⟩ := Option.map_eq_some'.mp hmap
  obtain ⟨s, hs, hsd⟩ := maxDate_mem _ _ hd
  have hstart : env.start ≤ d := hsd ▸ hdates pr hpr s hs
  rw [← hxd]
  simpa using hstart

open DefaultContestFormat in
/-- Witness for the amended claim C2 at `envA`: `cumtime` is the sum of the
per-problem deltas, and since no submission predates the start it is
non-negative. -/
theorem update_participation_c2_witness :
    rA.cumtime = cumOf envA.start envA.problems ∧ 0 ≤ rA.cumtime := by
  have h : update_participation envA partZero = some rA := by
    norm_num [update_participation, updateStep, maxDate, maxPoints, aggMax,
      dictInsert, envA, partZero, rA, List.foldlM]
  have h2 := update_participation_c2_amended envA partZero rA (by simp [envA]) h
  exact ⟨h2.1, h2.2 (by norm_num [envA])⟩

/-- Claim C3: the code contradicts the spec's "must not raise on any valid
persisted state".  On `envC`, whose single problem has one submission that
is still ungraded (`points` null — a valid persisted state), the aggregate
row has a non-null `time` but a null `points`, and `points +=
result['points']` is a `TypeError`: the update raises (returns `none`) for
every participation. -/
theorem update_participation_c3_ungraded_crash :
    (∀ q : Participation, DefaultContestFormat.update_participation envC q = none) ∧
    maxPoints [(⟨30, none⟩ : SubRow)] = none ∧
    maxDate [(⟨30, none⟩ : SubRow)] = some 30 := by
  refine ⟨?_, rfl, rfl⟩
  intro q
  norm_num [DefaultContestFormat.update_participation, DefaultContestFormat.updateStep,
    maxDate, maxPoints, aggMax, dictInsert, envC, List.foldlM]

open DefaultContestFormat in
/-- Claim C4: `update_participation` is idempotent — it never reads the
participation's previous `points`, `cumtime` or `format_data`, so a second
run on its own output overwrites the fields with identical values. -/
theorem update_participation_c4_idempotent (env : Env) (p r : Participation)
    (h : update_participation env p = some r) :
    update_participation env r = some r := h

open DefaultContestFormat in
/-- Witness for claim C4 at the scenario `envA`: running the update again on
its own output `rA` returns `rA` unchanged. -/
theorem update_participation_c4_witness :
    DefaultContestFormat.update_participation envA rA = some rA :=
  update_participation_c4_idempotent envA partZero rA (by
    norm_num [update_participation, updateStep, maxDate, maxPoints, aggMax,
      dictInsert, envA, partZero, rA, List.foldlM])

/-- Claim C5 counterexample: `best_solution_state(0, 10)` is the string
`'failed-score'`, not `'failed'` — the classification tags carry a
`-score` suffix. -/
theorem best_solution_state_c5_counterexample :
    BaseContestFormat.best_solution_state 0 10 = "failed-score" ∧
    "failed-score" ≠ "failed" := by
  constructor
  · simp [BaseContestFormat.best_solution_state]
  · decide

/-- Claim C5 as amended: `best_solution_state` classifies exactly as
claimed, but the returned tags are `'failed-score'`, `'full-score'` and
`'partial-score'`: falsy (zero) points give `'failed-score'`, points equal
to `total` give `'full-score'`, anything else `'partial-score'`. -/
theorem best_solution_state_c5_amended (points total : ℚ) :
    (points = 0 → BaseContestFormat.best_solution_state points total = "failed-score") ∧
    (points ≠ 0 → points = total →
      BaseContestFormat.best_solution_state points total = "full-score") ∧
    (points ≠ 0 → points ≠ total →
      BaseContestFormat.best_solution_state points total = "partial-score") := by
  refine ⟨fun h => ?_, fun h1 h2 => ?_, fun h1 h2 => ?_⟩
  · simp [BaseContestFormat.best_solution_state, h]
  · subst h2
    simp [BaseContestFormat.best_solution_state, h1]
  · simp [BaseContestFormat.best_solution_state, h1, h2]

/-- Witness for the amended claim C5 at the three inputs the spec lists. -/
theorem best_solution_state_c5_witness :
    BaseContestFormat.best_solution_state 0 10 = "failed-score" ∧
    BaseContestFormat.best_solution_state 10 10 = "full-score" ∧
    BaseContestFormat.best_solution_state 4 10 = "partial-score" :=
  ⟨(best_solution_state_c5_amended 0 10).1 rfl,
   (best_solution_state_c5_amended 10 10).2.1 (by norm_num) rfl,
   (best_solution_state_c5_amended 4 10).2.2 (by norm_num) (by norm_num)⟩

/-- Claim C6: registering an already-registered name fails (the duplicate
registration error), resolving a never-registered name fails (the unknown
format error), and after registering a fresh name once, resolving it
returns the registered class. -/
theorem registry_c6_register_resolve (formats : FormatRegistry) (name : String)
    (cls : ContestFormatClass) :
    ((formats.lookup name).isSome →
      register_contest_format name cls formats =
        Except.error "AssertionError: name already registered") ∧
    (formats.lookup name = none →
      resolve name formats = Except.error "UnknownFormatError") ∧
    (∀ fmts2, formats.lookup name = none →
      register_contest_format name cls formats = Except.ok fmts2 →
      resolve name fmts2 = Except.ok cls) := by
  refine ⟨fun h => ?_, fun h => ?_, fun fmts2 h hreg => ?_⟩
  · rw [register_contest_format, if_pos h]
  · rw [resolve, h]
  · have h2 : fmts2 = formats ++ [(name, cls)] := by
      rw [register_contest_format, if_neg (by simp [h])] at hreg
      exact (Except.ok.inj hreg).symm
    subst h2
    rw [resolve, lookup_append_left_none _ _ _ h]
    simp [List.lookup]

/-- Witness for claim C6 on a concrete registry: a duplicate `'default'`
registration fails, resolving in an empty registry fails, and resolving
after one successful registration returns the class. -/
theorem registry_c6_witness :
    register_contest_format "default" ⟨"Default"⟩ [("default", ⟨"Default"⟩)] =
      Except.error "AssertionError: name already registered" ∧
    resolve "default" [] = Except.error "UnknownFormatError" ∧
    resolve "default" [("default", ⟨"Default"⟩)] = Except.ok ⟨"Default"⟩ :=
  ⟨(registry_c6_register_resolve [("default", ⟨"Default"⟩)] "default" ⟨"Default"⟩).1 rfl,
   (registry_c6_register_resolve [] "default" ⟨"Default"⟩).2.1 rfl,
   (registry_c6_register_resolve [] "default" ⟨"Default"⟩).2.2
     [("default", ⟨"Default"⟩)] rfl rfl⟩

/-- Claim C7: the code contradicts the spec — `choices()` builds the sorted
`(name, displayName)` list but has no `return` statement, so it returns
`None` for every registry; the list it merely builds (`choices_result`) is
the sorted pairing the spec describes. -/
theorem choices_c7_missing_return :
    (∀ formats : FormatRegistry, choices formats = none) ∧
    choices_result [("default", ⟨"Default"⟩)] = [("default", "Default")] ∧
    choices_result [("icpc", ⟨"ICPC"⟩), ("default", ⟨"Default"⟩)] =
      [("default", "Default"), ("icpc", "ICPC")] :=
  ⟨fun _ => rfl, rfl, by decide⟩

/-- Claim C8: `DefaultContestFormat.validate` accepts exactly `None` and the
empty dict, and every rejection is the `ValidationError` with the source's
message. -/
theorem validate_c8_none_or_empty_dict (config : PyConfig) :
    (DefaultContestFormat.validate config = Except.ok () ↔
      config = PyConfig.none ∨ config = PyConfig.dict []) ∧
    (DefaultContestFormat.validate config = Except.ok () ∨
      DefaultContestFormat.validate config =
        Except.error "default contest expects no config or empty dict as config") := by
  cases config with
  | none => simp [DefaultContestFormat.validate]
  | dict entries =>
    cases entries with
    | nil => simp [DefaultContestFormat.validate, PyConfig.isDict, PyConfig.truthy]
    | cons e es => simp [DefaultContestFormat.validate, PyConfig.isDict, PyConfig.truthy]
  | other s => simp [DefaultContestFormat.validate, PyConfig.isDict, PyConfig.truthy]

/-- Claim C9: `is_graded` is `false` exactly on the statuses `QU` (Queued),
`C` (Compiled) and `G` (Grading), and `true` on every other status string —
in particular on `D` (Completed), `CE` (Compile Error) and `IE` (Internal
Error). -/
theorem is_graded_c9_terminal_states (status : String) :
    (Submission.is_graded status = false ↔
      status = "QU" ∨ status = "C" ∨ status = "G") ∧
    Submission.is_graded "D" = true ∧
    Submission.is_graded "CE" = true ∧
    Submission.is_graded "IE" = true := by
  refine ⟨?_, by decide, by decide, by decide⟩
  constructor
  · intro h
    have h3 : ¬status = "QU" → ¬status = "C" → status = "G" := by
      simpa [Submission.is_graded] using h
    by_cases hqu : status = "QU"
    · exact Or.inl hqu
    by_cases hcc : status = "C"
    · exact Or.inr (Or.inl hcc)
    exact Or.inr (Or.inr (h3 hqu hcc))
  · intro h
    have h2 : status ∈ (["QU", "C", "G"] : List String) := by
      rcases h with rfl | rfl | rfl <;> simp
    simp [Submission.is_graded, h2]

/-- Claim C10: with no `SubmissionTestCase` rows both properties return `0`
(a value, not `null` and not an error); with rows present (each graded row
carrying its points/total) they return the sums of the rows' `points` and
`total` columns respectively. -/
theorem testcase_points_c10_sums (cases : List Submission.SubmissionTestCase) :
    (cases = [] →
      Submission.testcase_granted_points cases = some 0 ∧
      Submission.testcase_total_points cases = some 0) ∧
    (cases ≠ [] → (∀ c ∈ cases, (c.points).isSome = true) →
      Submission.testcase_granted_points cases =
        some ((cases.map (fun c => (c.points).getD 0)).sum)) ∧
    (cases ≠ [] → (∀ c ∈ cases, (c.total).isSome = true) →
      Submission.testcase_total_points cases =
        some ((cases.map (fun c => (c.total).getD 0)).sum)) := by
  refine ⟨fun h => ?_, fun hne hall => ?_, fun hne hall => ?_⟩
  · subst h
    constructor <;> rfl
  · rw [Submission.testcase_granted_points, if_neg (by simpa using hne)]
    rw [sqlSum_all_some (cases.map (fun c => c.points))
      (by intro x hx; obtain ⟨c, hc, rfl⟩ := List.mem_map.mp hx; exact hall c hc)
      (by simpa using hne)]
    simp [Function.comp_def]
  · rw [Submission.testcase_total_points, if_neg (by simpa using hne)]
    rw [sqlSum_all_some (cases.map (fun c => c.total))
      (by intro x hx; obtain ⟨c, hc, rfl⟩ := List.mem_map.mp hx; exact hall c hc)
      (by simpa using hne)]
    simp [Function.comp_def]

/-- Witness for claim C10: no rows gives `0` for both properties; two graded
rows (3/5 and 4/5) give the sums 7 and 10. -/
theorem testcase_points_c10_witness :
    Submission.testcase_granted_points [] = some 0 ∧
    Submission.testcase_total_points [] = some 0 ∧
    Submission.testcase_granted_points [⟨some 3, some 5⟩, ⟨some 4, some 5⟩] = some 7 ∧
    Submission.testcase_total_points [⟨some 3, some 5⟩, ⟨some 4, some 5⟩] = some 10 := by
  have h0 := (testcase_points_c10_sums []).1 rfl
  have h := testcase_points_c10_sums [⟨some 3, some 5⟩, ⟨some 4, some 5⟩]
  refine ⟨h0.1, h0.2, ?_, ?_⟩
  · rw [h.2.1 (by simp) (by simp)]
    norm_num
  · rw [h.2.2 (by simp) (by simp)]
    norm_num
